import Mathlib

/-!
Verification of the ETAS fit-visualisation module (`etas/plots.py`).

The Python source is shallowly embedded as follows.

* A row of the Pij event-pair table becomes the structure `PairRow` with
  rational fields (the CSV values are decimal literals; exact rational
  arithmetic stands in for IEEE doubles, which is noted wherever a claim
  turns on rounding behaviour of the actual floats).
* `np.histogram` with an explicit array of bin edges becomes `histogram`:
  bin `i` collects samples `x` with `edges[i] <= x < edges[i+1]`, the last
  bin also including its right edge, weights summed per bin.  This is the
  documented semantics of numpy's array-bins histogram.
* The analytic kernels, which involve `exp`, `log` and real exponents,
  are embedded over `ℝ` with `Real.rpow` for the float `**` operator.
* The spatial plot routine is additionally embedded in a NaN-aware model
  (`NF := Option ℝ`, `none` playing IEEE NaN) because its behaviour on an
  empty event subset is pure NaN propagation; see the definitions below.
-/

set_option maxHeartbeats 1000000
set_option maxRecDepth 8000

namespace EtasPlots

/-- Row of the Pij event-pair table loaded by the plot routines
(`plots.py`, docstrings of the three plot functions): time distance,
squared spatial distance, source magnitude, triggering probability `Pij`
and the incompleteness factor `zeta_plus_1`. -/
structure PairRow where
  time_distance : ℚ
  spatial_distance_squared : ℚ
  source_magnitude : ℚ
  Pij : ℚ
  zeta_plus_1 : ℚ
deriving DecidableEq, Repr

/-- Weight vector of the empirical histogram in `temporal_decay_plot`
(`plots.py` line 50: `weights=Pmat["Pij"]*Pmat["zeta_plus_1"]`). -/
def temporal_weights (rows : List PairRow) : List ℚ :=
  rows.map fun r => r.Pij * r.zeta_plus_1

/-- Weight vector of the empirical histogram in `productivity_plot`
(`plots.py` line 139: `weights=Pmat["Pij"]*Pmat["zeta_plus_1"]`). -/
def productivity_weights (rows : List PairRow) : List ℚ :=
  rows.map fun r => r.Pij * r.zeta_plus_1

/-- Weight vector of the empirical histogram in `spatial_decay_plot`
(`plots.py` line 230: `weights=Psubmat["Pij"]*Psubmat["zeta_plus_1"]`). -/
def spatial_weights (rows : List PairRow) : List ℚ :=
  rows.map fun r => r.Pij * r.zeta_plus_1

/-- Weighted content of one histogram bin `[lo, hi)` (right edge included
when `lastBin` is true), over a list of (sample, weight) pairs; this is
numpy's per-bin accumulation for `np.histogram` with array bin edges. -/
def binWeight {α : Type} [LinearOrderedField α] (lo hi : α) (lastBin : Bool)
    (sw : List (α × α)) : α :=
  (sw.map fun p =>
    if lo ≤ p.1 ∧ (p.1 < hi ∨ (lastBin ∧ p.1 = hi)) then p.2 else 0).sum

/-- Embedding of `np.histogram(samples, bins=edges, weights=weights)` for a
monotone array of bin edges: one weighted count per bin. -/
def histogram {α : Type} [LinearOrderedField α]
    (samples weights edges : List α) : List α :=
  (List.range (edges.length - 1)).map fun i =>
    binWeight (edges.getD i 0) (edges.getD (i + 1) 0)
      (decide (i + 2 = edges.length)) (samples.zip weights)

/-- Density step of the weighted-histogram normaliser: weighted counts
divided elementwise by the bin widths `edges[1:] - edges[:-1]`
(`plots.py` lines 43 and 55, lines 222 and 232). -/
def hist_density {α : Type} [LinearOrderedField α]
    (samples weights edges : List α) : List α :=
  List.zipWith (· / ·) (histogram samples weights edges)
    (List.zipWith (· - ·) edges.tail edges.dropLast)

/-- Weighted-histogram normaliser shared by the temporal and spatial plots
(`plots.py` lines 55-56 and 232-233): densities divided by the sum of all
densities, giving a unit-mass PDF. -/
def hist_pdf {α : Type} [LinearOrderedField α]
    (samples weights edges : List α) : List α :=
  (hist_density samples weights edges).map
    (· / (hist_density samples weights edges).sum)

/-- Embedding of `spatial_kernel` (`plots.py` lines 164-172):
`1 / (dist + d*np.exp(gamma*(m-mc)))**(1+rho)`, with the float `**`
rendered as `Real.rpow`. -/
noncomputable def spatial_kernel (dist d gamma rho m mc : ℝ) : ℝ :=
  1 / (dist + d * Real.exp (gamma * (m - mc))) ^ (1 + rho)

/-- Embedding of the temporal decay kernel inlined at `plots.py` line 45:
`np.exp(-tmid/tau) / (tmid+c)**(1+omega)`, pointwise in the time lag. -/
noncomputable def time_decay_kernel (tau c omega t : ℝ) : ℝ :=
  Real.exp (-t / tau) / (t + c) ^ (1 + omega)

/-- Embedding of `np.logspace(a, b)` (base 10, `num` points, endpoint
included): `10 ** linspace(a, b, num)` with
`linspace(a, b, n)[i] = a + (b-a)/(n-1) * i`.  numpy additionally forces
the final linspace entry to be exactly `b`; over `ℝ` the formula already
gives `b` at `i = n-1`, so no correction is needed. -/
noncomputable def logspace10 (a b : ℝ) (n : ℕ) : List ℝ :=
  (List.range n).map fun i : ℕ =>
    (10 : ℝ) ^ (a + (b - a) / ((n : ℝ) - 1) * (i : ℝ))

/-- Time bin edges of `temporal_decay_plot` (`plots.py` line 42):
`np.logspace(-4, 4)` with the default 50 points. -/
noncomputable def time_bins : List ℝ := logspace10 (-4) 4 50

/-- Arithmetic midpoints of consecutive time bin edges (`plots.py`
line 44): `(time_bins[:-1] + time_bins[1:]) / 2`. -/
noncomputable def tmid : List ℝ :=
  List.zipWith (fun x y => (x + y) / 2) time_bins.dropLast time_bins.tail

/-- Analytic time-decay curve of `temporal_decay_plot` (`plots.py`
line 45), evaluated at the bin midpoints. -/
noncomputable def time_decay_curve (tau c omega : ℝ) : List ℝ :=
  tmid.map fun t => time_decay_kernel tau c omega t

/-- Unit-mass normalisation of the analytic curve (`plots.py` line 53):
`time_decay / np.sum(time_decay)`. -/
noncomputable def time_decay_scaled (tau c omega : ℝ) : List ℝ :=
  (time_decay_curve tau c omega).map (· / (time_decay_curve tau c omega).sum)

/-- Empirical time-decay histogram of `temporal_decay_plot` (`plots.py`
lines 47-56): weighted histogram over `time_bins`, density-normalised. -/
noncomputable def temporal_empirical (rows : List PairRow) : List ℝ :=
  hist_pdf (rows.map fun r => (r.time_distance : ℝ))
    ((temporal_weights rows).map fun q => (q : ℝ)) time_bins

/-- Embedding of `np.arange(start, stop, step)` for a positive step:
values `start + i*step` on the half-open interval `[start, stop)`, with
`ceil((stop - start)/step)` entries (numpy's documented length). -/
def arange (start stop step : ℚ) : List ℚ :=
  (List.range (⌈(stop - start) / step⌉).toNat).map fun i => start + (i : ℚ) * step

/-- Embedding of `np.min` on a nonempty column; the empty case (where
numpy raises) returns a junk value and is never reached in the theorems
below. -/
def npmin : List ℚ → ℚ
  | [] => 0
  | x :: xs => xs.foldl min x

/-- Embedding of `np.max` on a nonempty column; junk on the empty list as
in `npmin`. -/
def npmax : List ℚ → ℚ
  | [] => 0
  | x :: xs => xs.foldl max x

/-- Magnitude bin edges of `productivity_plot` (`plots.py` line 130):
`np.arange(min_mag - delta_m/2, max_mag + delta_m/2, delta_m)`. -/
def magnitude_bins (catalog : List ℚ) (delta_m : ℚ) : List ℚ :=
  arange (npmin catalog - delta_m / 2) (npmax catalog + delta_m / 2) delta_m

/-- Empirical productivity series of `productivity_plot` (`plots.py`
lines 136-144): weighted histogram of source magnitudes over the
magnitude bins, divided elementwise by the unweighted count of catalog
events per bin.  numpy's division by a zero count yields NaN (omitted
from the plot); in this rational model such entries are never evaluated
by the theorems below. -/
def productivity_empirical (rows : List PairRow) (catalog : List ℚ)
    (delta_m : ℚ) : List ℚ :=
  List.zipWith (· / ·)
    (histogram (rows.map PairRow.source_magnitude) (productivity_weights rows)
      (magnitude_bins catalog delta_m))
    (histogram catalog (catalog.map fun _ => 1) (magnitude_bins catalog delta_m))

/-- Comparison-region parameter dictionary handled by the harmonisation
step of `ETASFitVisualisation.__init__` (`plots.py` lines 280-300): the
keys read or written there, plus the keys later read by the plot
methods. -/
structure CompParams where
  log10_mu : ℝ
  log10_d : ℝ
  log10_k0 : ℝ
  gamma : ℝ
  rho : ℝ
  beta : ℝ
  mc : ℝ
  delta_m : ℝ
  log10_c : ℝ
  log10_tau : ℝ
  omega : ℝ

/-- Magnitude shift `del_m` of the harmonisation (`plots.py` line 290):
`params["mc"] - params["delta_m"]/2 - (self.mc - self.delta_m/2)`. -/
noncomputable def del_m (primary_mc primary_delta_m : ℝ) (p : CompParams) : ℝ :=
  p.mc - p.delta_m / 2 - (primary_mc - primary_delta_m / 2)

/-- Harmonisation of one comparison parameter set (`plots.py` lines
283-297): the log10-stored fields are exponentiated, rescaled by
`exp(del_m*gamma)`, `exp(del_m*gamma*rho)`, `exp(-del_m*beta)`, and the
log10 of the results is written back into the same record. -/
noncomputable def harmonize (primary_mc primary_delta_m : ℝ)
    (p : CompParams) : CompParams :=
  let mu := (10 : ℝ) ^ p.log10_mu
  let d := (10 : ℝ) ^ p.log10_d
  let k := (10 : ℝ) ^ p.log10_k0
  let dm := del_m primary_mc primary_delta_m p
  { p with
    log10_mu := Real.logb 10 (mu * Real.exp (-dm * p.beta))
    log10_d := Real.logb 10 (d * Real.exp (dm * p.gamma))
    log10_k0 := Real.logb 10 (k * Real.exp (dm * p.gamma * p.rho)) }

/-- Concrete comparison set with `mc = 2`, `delta_m = 1` for the C2
witness. -/
noncomputable def demo_comp_params : CompParams :=
  ⟨0, 0, 0, 1, 1, 1, 2, 1, 0, 0, 0⟩

/-- Heap of comparison-parameter dictionaries, indexed by object
identity: Python's nested dicts are mutable objects, so the caller's
`metadata["comparison_parameters"]` holds references (here: addresses)
into this heap. -/
def ParamStore := ℕ → CompParams

/-- Destructive update of one heap cell, modelling an in-place write to a
Python dict. -/
noncomputable def writeStore (s : ParamStore) (a : ℕ) (v : CompParams) : ParamStore :=
  fun x => if x = a then v else s x

/-- Embedding of the comparison-parameter loop of
`ETASFitVisualisation.__init__` (`plots.py` lines 280-300): for each
label the referenced dict is read, harmonised, and the results written
back through the same reference (`params["log10_mu"] = ...` mutates the
dict the caller's metadata still points to; the rebuilt outer dict on
lines 299-300 maps labels to these same objects). -/
noncomputable def construct_comparison (primary_mc primary_delta_m : ℝ)
    (addrs : List ℕ) (s : ParamStore) : ParamStore :=
  addrs.foldl
    (fun st a => writeStore st a (harmonize primary_mc primary_delta_m (st a))) s

/-- numpy's documented decimal rounding at one digit,
`np.round(x, 1)`: scale by 10, round half to even, unscale.  (The binary
representation error of the actual doubles is not modelled.) -/
def roundHalfToEven (x : ℚ) : ℤ :=
  if x - (⌊x⌋ : ℚ) < 1 / 2 then ⌊x⌋
  else if 1 / 2 < x - (⌊x⌋ : ℚ) then ⌊x⌋ + 1
  else if ⌊x⌋ % 2 = 0 then ⌊x⌋ else ⌊x⌋ + 1

/-- Embedding of `np.round(x, 1)`. -/
def npround1 (x : ℚ) : ℚ := (roundHalfToEven (10 * x) : ℚ) / 10

/-- Event-pair subset selected by `spatial_decay_plot` for one requested
magnitude (`plots.py` line 216):
`Pmat[np.round(Pmat["source_magnitude"],1) == np.round(moi,1)]`. -/
def spatial_subset (rows : List PairRow) (moi : ℚ) : List PairRow :=
  rows.filter fun r => npround1 r.source_magnitude == npround1 moi

/-- NaN-aware float value: `none` models a non-finite IEEE result (NaN,
and in the division and log cases also infinities, which never arise on
the inputs evaluated by the theorems below); `some x` models a finite
float as an exact real. -/
abbrev NF : Type := Option ℝ

/-- NaN-propagating addition. -/
def nadd : NF → NF → NF
  | some a, some b => some (a + b)
  | _, _ => none

/-- NaN-propagating subtraction. -/
def nsub : NF → NF → NF
  | some a, some b => some (a - b)
  | _, _ => none

/-- NaN-propagating multiplication. -/
def nmul : NF → NF → NF
  | some a, some b => some (a * b)
  | _, _ => none

/-- NaN-propagating division; a zero divisor gives a non-finite result
(IEEE: NaN for `0/0`, an infinity otherwise — on every input evaluated
below the dividend is 0 or NaN there). -/
noncomputable def ndiv : NF → NF → NF
  | some a, some b => if b = 0 then none else some (a / b)
  | _, _ => none

/-- Embedding of `np.sqrt`: NaN on negative input, NaN-propagating. -/
noncomputable def nsqrt : NF → NF
  | some a => if a < 0 then none else some (Real.sqrt a)
  | none => none

/-- Embedding of `np.log` (natural log): non-finite on non-positive
input (IEEE: `-inf` at 0, NaN below), NaN-propagating. -/
noncomputable def nlog : NF → NF
  | some a => if a ≤ 0 then none else some (Real.log a)
  | none => none

/-- Embedding of `10 ** x` as used by `np.logspace`, NaN-propagating. -/
noncomputable def npow10 : NF → NF
  | some a => some ((10 : ℝ) ^ a)
  | none => none

/-- Embedding of the float `**` for NaN-aware operands (base positive on
every input evaluated below). -/
noncomputable def nrpow : NF → NF → NF
  | some a, some b => some (a ^ b)
  | _, _ => none

/-- IEEE comparisons involving NaN are false. -/
noncomputable def ngt (a b : NF) : Bool :=
  match a, b with
  | some x, some y => decide (y < x)
  | _, _ => false

/-- Less-or-equal, false on NaN. -/
noncomputable def nle (a b : NF) : Bool :=
  match a, b with
  | some x, some y => decide (x ≤ y)
  | _, _ => false

/-- Strictly-less, false on NaN. -/
noncomputable def nlt (a b : NF) : Bool :=
  match a, b with
  | some x, some y => decide (x < y)
  | _, _ => false

/-- Equality test, false on NaN. -/
noncomputable def neq (a b : NF) : Bool :=
  match a, b with
  | some x, some y => decide (x = y)
  | _, _ => false

/-- Embedding of pandas `Series.max()` as invoked through `np.max` at
`plots.py` line 218: with the default `skipna` the NaN entries are
dropped and the maximum of the rest is returned; an empty series yields
NaN (pandas returns NaN, it does not raise). -/
noncomputable def seriesMax (l : List NF) : NF :=
  match l.filterMap id with
  | [] => none
  | x :: xs => some (xs.foldl max x)

/-- Embedding of `np.nansum`: NaN entries count as zero, and the result
is always a number. -/
noncomputable def nansum (l : List NF) : NF := some ((l.filterMap id).sum)

/-- Embedding of `np.linspace(a, b, n)` (`i * step + start` with
`step = (b-a)/(n-1)`); numpy's final-entry endpoint correction coincides
with the formula over exact reals and writes NaN when `b` is NaN, as the
formula does. -/
noncomputable def nlinspace (a b : NF) (n : ℕ) : List NF :=
  (List.range n).map fun i : ℕ =>
    nadd (nmul (some (i : ℝ)) (ndiv (nsub b a) (some ((n : ℝ) - 1)))) a

/-- Embedding of `np.logspace(a, b, n)`: `10 **` applied to the linspace
entries. -/
noncomputable def nlogspace (a b : NF) (n : ℕ) : List NF :=
  (nlinspace a b n).map npow10

/-- Maximum observed spatial distance of `spatial_decay_plot`
(`plots.py` line 218):
`np.sqrt(np.max(Psubmat["spatial_distance_squared"]))`. -/
noncomputable def spatial_max_dist (rows : List PairRow) (moi : ℚ) : NF :=
  nsqrt (seriesMax ((spatial_subset rows moi).map fun r =>
    some ((r.spatial_distance_squared : ℝ))))

/-- Distance bin edges of `spatial_decay_plot` (`plots.py` line 220):
`np.logspace(-1, np.log(max_dist))` — note the natural log fed into a
base-10 logspace — with the default 50 points. -/
noncomputable def spatial_bins (rows : List PairRow) (moi : ℚ) : List NF :=
  nlogspace (some (-1)) (nlog (spatial_max_dist rows moi)) 50

/-- Per-bin weighted count for the NaN-aware histogram. -/
noncomputable def nbinWeight (lo hi : NF) (lastBin : Bool)
    (sw : List (NF × NF)) : NF :=
  (sw.map fun p =>
    if nle lo p.1 && (nlt p.1 hi || (lastBin && neq p.1 hi))
    then p.2 else some 0).foldl nadd (some 0)

/-- Monotonicity check of `np.histogram` for an explicit bin-edge array:
`np.any(bins[:-1] > bins[1:])` raises `ValueError` when true; NaN edges
compare false and pass the check. -/
noncomputable def binsDecreasing (edges : List NF) : Bool :=
  (List.zipWith ngt edges.dropLast edges.tail).any id

/-- NaN-aware counterpart of `histogram` for the spatial plot (the only
place where NaN bin edges can reach `np.histogram`). -/
noncomputable def histogramNF (samples weights edges : List NF) : List NF :=
  (List.range (edges.length - 1)).map fun i =>
    nbinWeight (edges.getD i none) (edges.getD (i + 1) none)
      (decide (i + 2 = edges.length)) (samples.zip weights)

/-- NaN-aware spatial kernel (`plots.py` line 172) evaluated at a bin
midpoint. -/
noncomputable def nkernel (r : NF) (d gamma rho m mc : ℝ) : NF :=
  ndiv (some 1)
    (nrpow (nadd r (some (d * Real.exp (gamma * (m - mc))))) (some (1 + rho)))

/-- Embedding of the per-magnitude body of `spatial_decay_plot`
(`plots.py` lines 214-254) up to the data handed to matplotlib: the
analytic scaled curve and the empirical scaled histogram.  The only
modelled exception is `np.histogram`'s `ValueError` for a decreasing
bin-edge array (`Except.error`); drawing and file I/O are outside the
model. -/
noncomputable def spatial_run (rows : List PairRow) (moi : ℚ)
    (d gamma rho mc : ℝ) : Except Unit (List NF × List NF) :=
  let bins := spatial_bins rows moi
  let distances :=
    List.zipWith (fun x y => ndiv (nadd x y) (some 2)) bins.tail bins.dropLast
  let sizes := List.zipWith nsub bins.tail bins.dropLast
  let curve := distances.map fun r => nkernel r d gamma rho ((moi : ℚ) : ℝ) mc
  let curveScaled := curve.map fun x => ndiv x (nansum curve)
  if binsDecreasing bins then Except.error () else
  let counts := histogramNF
    ((spatial_subset rows moi).map fun r =>
      some ((r.spatial_distance_squared : ℝ)))
    ((spatial_weights (spatial_subset rows moi)).map fun q => some ((q : ℝ)))
    bins
  let emp := List.zipWith ndiv counts sizes
  let empScaled := emp.map fun x => ndiv x (nansum emp)
  Except.ok (curveScaled, empScaled)

/-- Maximum of a nonempty real list, numpy-style (junk 0 on the empty
list, never reached below). -/
noncomputable def npmaxR : List ℝ → ℝ
  | [] => 0
  | x :: xs => xs.foldl max x

/-- Maximum squared spatial distance over the selected subset — the
quantity whose square root `plots.py` line 218 takes. -/
noncomputable def spatial_max_sq (rows : List PairRow) (moi : ℚ) : ℝ :=
  npmaxR ((spatial_subset rows moi).map fun r => ((r.spatial_distance_squared : ℝ)))

theorem list_map_div_sum {α : Type} [DivisionRing α] (l : List α) (s : α) :
    (l.map (· / s)).sum = l.sum / s := by
  induction l with
  | nil => simp
  | cons a t ih => simp [ih, add_div]

theorem map_mul_eq_zipWith (rows : List PairRow) (f g : PairRow → ℚ) :
    rows.map (fun r => f r * g r)
      = List.zipWith (· * ·) (rows.map f) (rows.map g) := by
  induction rows with
  | nil => rfl
  | cons a t ih => simp only [List.map_cons, List.zipWith_cons_cons, ih]

/-- C1: every empirical weighted histogram computed by the three plot
routines (`temporal_decay_plot`, `productivity_plot`, `spatial_decay_plot`)
uses, for every input event-pair table, the elementwise product of the
`Pij` and `zeta_plus_1` columns as its weight vector. -/
theorem plots_weight_vectors_are_pij_times_zeta (rows : List PairRow) :
    temporal_weights rows
      = List.zipWith (· * ·) (rows.map PairRow.Pij) (rows.map PairRow.zeta_plus_1)
    ∧ productivity_weights rows
      = List.zipWith (· * ·) (rows.map PairRow.Pij) (rows.map PairRow.zeta_plus_1)
    ∧ spatial_weights rows
      = List.zipWith (· * ·) (rows.map PairRow.Pij) (rows.map PairRow.zeta_plus_1) :=
  ⟨map_mul_eq_zipWith rows _ _, map_mul_eq_zipWith rows _ _,
    map_mul_eq_zipWith rows _ _⟩

/-- C3: for every input of raw sample values, weights `Pij * zeta_plus_1`
and (monotone) bin edges such that the weighted bin densities have nonzero
sum, the weighted-histogram normalisation produces a vector summing to 1.
In this exact-arithmetic model no NaN bins arise under these hypotheses,
so the sum ranges over all bins. -/
theorem hist_pdf_sums_to_one (rows : List PairRow) (f : PairRow → ℚ)
    (edges : List ℚ) (_hmono : edges.Chain' (· < ·))
    (hS : (hist_density (rows.map f) (temporal_weights rows) edges).sum ≠ 0) :
    (hist_pdf (rows.map f) (temporal_weights rows) edges).sum = 1 := by
  unfold hist_pdf
  rw [list_map_div_sum]
  exact div_self hS

/-- Witness for C3 at a one-row table and edges `[0, 2]`. -/
theorem hist_pdf_sums_to_one_witness :
    (hist_pdf ([⟨1, 0, 0, 1, 1⟩].map PairRow.time_distance)
      (temporal_weights [⟨1, 0, 0, 1, 1⟩]) [0, 2]).sum = 1 :=
  hist_pdf_sums_to_one [⟨1, 0, 0, 1, 1⟩] PairRow.time_distance [0, 2]
    (by norm_num [List.chain'_cons])
    (by norm_num [hist_density, histogram, binWeight, temporal_weights,
      List.range_succ])

/-- C4: `spatial_kernel dist d gamma rho m mc` returns
`1 / (dist + d * exp(gamma*(m - mc)))^(1+rho)` for every input. -/
theorem spatial_kernel_formula (dist d gamma rho m mc : ℝ) :
    spatial_kernel dist d gamma rho m mc
      = 1 / (dist + d * Real.exp (gamma * (m - mc))) ^ (1 + rho) := rfl

/-- C5: with `d`, `tau`, `c` positive and the exponents `1+rho`, `1+omega`
positive, both kernels are strictly positive at every non-negative
distance resp. time, and monotonically non-increasing in distance resp.
time. -/
theorem kernels_positive_and_antitone
    (dist dist' d gamma rho m mc t t' tau c omega : ℝ)
    (hdist : 0 ≤ dist) (hdd : dist ≤ dist') (hd : 0 < d) (hrho : 0 < 1 + rho)
    (ht : 0 ≤ t) (htt : t ≤ t') (htau : 0 < tau) (hc : 0 < c)
    (homega : 0 < 1 + omega) :
    0 < spatial_kernel dist d gamma rho m mc
    ∧ spatial_kernel dist' d gamma rho m mc
        ≤ spatial_kernel dist d gamma rho m mc
    ∧ 0 < time_decay_kernel tau c omega t
    ∧ time_decay_kernel tau c omega t' ≤ time_decay_kernel tau c omega t := by
  have hbase : 0 < dist + d * Real.exp (gamma * (m - mc)) :=
    add_pos_of_nonneg_of_pos hdist (mul_pos hd (Real.exp_pos _))
  have hbase' : dist + d * Real.exp (gamma * (m - mc))
      ≤ dist' + d * Real.exp (gamma * (m - mc)) := by linarith
  have htc : (0 : ℝ) < t + c := by linarith
  have htc' : t + c ≤ t' + c := by linarith
  refine ⟨?_, ?_, ?_, ?_⟩
  · exact div_pos one_pos (Real.rpow_pos_of_pos hbase _)
  · exact one_div_le_one_div_of_le (Real.rpow_pos_of_pos hbase _)
      (Real.rpow_le_rpow hbase.le hbase' hrho.le)
  · exact div_pos (Real.exp_pos _) (Real.rpow_pos_of_pos htc _)
  · refine div_le_div₀ (Real.exp_pos _).le
      (Real.exp_le_exp.2 ((div_le_div_iff_of_pos_right htau).2 (neg_le_neg htt)))
      (Real.rpow_pos_of_pos htc _)
      (Real.rpow_le_rpow htc.le htc' homega.le)

/-- Witness for C5 at `dist = 0, dist' = 1, d = tau = c = 1`,
`gamma = rho = omega = m = mc = 0, t = 0, t' = 1`. -/
theorem kernels_positive_and_antitone_witness :
    0 < spatial_kernel 0 1 0 0 0 0
    ∧ spatial_kernel 1 1 0 0 0 0 ≤ spatial_kernel 0 1 0 0 0 0
    ∧ 0 < time_decay_kernel 1 1 0 0
    ∧ time_decay_kernel 1 1 0 1 ≤ time_decay_kernel 1 1 0 0 :=
  kernels_positive_and_antitone 0 1 1 0 0 0 0 0 1 1 1 0
    (by norm_num) (by norm_num) (by norm_num) (by norm_num) (by norm_num)
    (by norm_num) (by norm_num) (by norm_num) (by norm_num)

theorem getLast?_map_range {α : Type} (f : ℕ → α) (n : ℕ) :
    ((List.range (n + 1)).map f).getLast? = some (f n) := by
  rw [List.range_succ, List.map_append]
  simp

/-- C7: `temporal_decay_plot` builds 50 logarithmically spaced time bin
edges running from `10^-4` to `10^4` inclusive, and its analytic curve is
`exp(-t/tau) / (t+c)^(1+omega)` at the arithmetic midpoints of consecutive
bin edges, divided by the sum of those values. -/
theorem time_bins_and_analytic_curve (tau c omega : ℝ) :
    time_bins.length = 50
    ∧ time_bins.head? = some ((10 : ℝ) ^ (-4 : ℝ))
    ∧ time_bins.getLast? = some ((10 : ℝ) ^ (4 : ℝ))
    ∧ time_decay_scaled tau c omega
        = (tmid.map fun t => Real.exp (-t / tau) / (t + c) ^ (1 + omega)).map
            (· / (tmid.map fun t =>
              Real.exp (-t / tau) / (t + c) ^ (1 + omega)).sum) := by
  refine ⟨rfl, ?_, ?_, ?_⟩
  · have h : time_bins.head?
        = some ((10 : ℝ) ^ ((-4 : ℝ) + (4 - (-4)) / ((50 : ℝ) - 1) * ((0 : ℕ) : ℝ))) := rfl
    rw [h]
    norm_num
  · have h : time_bins.getLast?
        = some ((10 : ℝ) ^ ((-4 : ℝ) + (4 - (-4)) / ((50 : ℝ) - 1) * ((49 : ℕ) : ℝ))) := rfl
    rw [h]
    norm_num
  · simp only [time_decay_scaled, time_decay_curve, time_decay_kernel]

/-- C6 (failing-input evaluation): with a catalog of 10 events all at
magnitude 3.0, delta_m = 0.1, and 5 event pairs at source magnitude 3.0,
`np.arange(2.95, 3.05, 0.1)` has `ceil((3.05-2.95)/0.1) = 1` entry (its
stop is excluded; IEEE doubles give the same length), so the magnitude
bin-edge list is the single edge `2.95 = 59/20`, the histogram has zero
bins, and the empirical series is empty: no bin contains magnitude 3.0,
contradicting the claimed per-bin value `(sum of Pij*zeta_plus_1)/10`. -/
theorem productivity_uniform_catalog_gives_empty_series :
    magnitude_bins [3, 3, 3, 3, 3, 3, 3, 3, 3, 3] (1 / 10) = [59 / 20]
    ∧ productivity_empirical
        [⟨0, 0, 3, 1 / 2, 1⟩, ⟨0, 0, 3, 1 / 2, 1⟩, ⟨0, 0, 3, 1 / 2, 1⟩,
          ⟨0, 0, 3, 1 / 2, 1⟩, ⟨0, 0, 3, 1 / 2, 1⟩]
        [3, 3, 3, 3, 3, 3, 3, 3, 3, 3] (1 / 10) = [] := by
  constructor
  · norm_num [magnitude_bins, arange, npmin, npmax, List.foldl, List.range_succ]
  · norm_num [productivity_empirical, magnitude_bins, arange, npmin, npmax,
      histogram, List.foldl, List.range_succ]

/-- C2: when the comparison set's `mc` and `delta_m` equal the primary
set's, the harmonisation computes `del_m = 0` and leaves every field of
the record, in particular `log10_d`, `log10_k0` and `log10_mu`, exactly
equal to its original value. -/
theorem harmonize_same_mc_is_identity (primary_mc primary_delta_m : ℝ)
    (p : CompParams) (h1 : p.mc = primary_mc)
    (h2 : p.delta_m = primary_delta_m) :
    del_m primary_mc primary_delta_m p = 0
    ∧ harmonize primary_mc primary_delta_m p = p := by
  have hdm : del_m primary_mc primary_delta_m p = 0 := by
    unfold del_m
    rw [h1, h2]
    ring
  refine ⟨hdm, ?_⟩
  unfold harmonize
  rw [hdm]
  cases p
  simp [Real.exp_zero,
    Real.logb_rpow (by norm_num : (0 : ℝ) < 10) (by norm_num : (10 : ℝ) ≠ 1)]

/-- Witness for C2 at primary `mc = 2`, `delta_m = 1`. -/
theorem harmonize_same_mc_is_identity_witness :
    del_m 2 1 demo_comp_params = 0
    ∧ harmonize 2 1 demo_comp_params = demo_comp_params :=
  harmonize_same_mc_is_identity 2 1 demo_comp_params rfl rfl

theorem construct_comparison_not_mem (pmc pdm : ℝ) (addrs : List ℕ)
    (s : ParamStore) (a : ℕ) (ha : a ∉ addrs) :
    construct_comparison pmc pdm addrs s a = s a := by
  induction addrs generalizing s with
  | nil => rfl
  | cons b t ih =>
    simp only [List.mem_cons, not_or] at ha
    have hstep : construct_comparison pmc pdm (b :: t) s
        = construct_comparison pmc pdm t
            (writeStore s b (harmonize pmc pdm (s b))) := rfl
    rw [hstep, ih _ ha.2]
    simp [writeStore, ha.1]

theorem construct_comparison_mem (pmc pdm : ℝ) (addrs : List ℕ)
    (hnd : addrs.Nodup) (s : ParamStore) (a : ℕ) (ha : a ∈ addrs) :
    construct_comparison pmc pdm addrs s a = harmonize pmc pdm (s a) := by
  induction addrs generalizing s with
  | nil => cases ha
  | cons b t ih =>
    rw [List.nodup_cons] at hnd
    have hstep : construct_comparison pmc pdm (b :: t) s
        = construct_comparison pmc pdm t
            (writeStore s b (harmonize pmc pdm (s b))) := rfl
    rcases List.mem_cons.1 ha with rfl | hmem
    · rw [hstep, construct_comparison_not_mem _ _ _ _ _ hnd.1]
      simp [writeStore]
    · have hab : a ≠ b := fun h => hnd.1 (h ▸ hmem)
      rw [hstep, ih hnd.2 _ hmem]
      simp [writeStore, hab]

/-- C10: the constructor mutates the caller's metadata in place.  For
every heap and every duplicate-free address list held by the caller's
`comparison_parameters` mapping, after construction each referenced cell
holds the harmonised record in place of the original; and there are
parameter values for which the harmonised record differs from the
original, so the caller's mappings no longer hold their pre-construction
values. -/
theorem constructor_mutates_callers_metadata (pmc pdm : ℝ) (s : ParamStore)
    (addrs : List ℕ) (hnd : addrs.Nodup) (a : ℕ) (ha : a ∈ addrs) :
    construct_comparison pmc pdm addrs s a = harmonize pmc pdm (s a)
    ∧ ∃ q pmc' pdm', harmonize pmc' pdm' q ≠ q := by
  refine ⟨construct_comparison_mem pmc pdm addrs hnd s a ha, ?_⟩
  refine ⟨⟨0, 0, 0, 0, 0, 1, 1, 0, 0, 0, 0⟩, 0, 0, fun hEq => ?_⟩
  have hmu : (harmonize 0 0 ⟨0, 0, 0, 0, 0, 1, 1, 0, 0, 0, 0⟩).log10_mu
      = Real.logb 10 (Real.exp (-1)) := by
    simp [harmonize, del_m]
  have hneg : Real.logb 10 (Real.exp (-1)) < 0 :=
    Real.logb_neg (by norm_num) (Real.exp_pos _)
      (Real.exp_lt_one_iff.2 (by norm_num))
  have h0 : (harmonize 0 0 ⟨0, 0, 0, 0, 0, 1, 1, 0, 0, 0, 0⟩).log10_mu
      = (0 : ℝ) := by rw [hEq]
  rw [hmu] at h0
  exact absurd h0 (ne_of_lt hneg)

/-- Witness for C10 at a one-reference metadata mapping. -/
theorem constructor_mutates_callers_metadata_witness :
    construct_comparison 0 0 [0]
        (fun _ => ⟨0, 0, 0, 0, 0, 1, 1, 0, 0, 0, 0⟩) 0
      = harmonize 0 0 ⟨0, 0, 0, 0, 0, 1, 1, 0, 0, 0, 0⟩
    ∧ ∃ q pmc' pdm', harmonize pmc' pdm' q ≠ q :=
  constructor_mutates_callers_metadata 0 0
    (fun _ => ⟨0, 0, 0, 0, 0, 1, 1, 0, 0, 0, 0⟩) [0] (by simp) 0 (by simp)

theorem map_range_const {α : Type} (n : ℕ) :
    ∀ (g : ℕ → α) (c : α), (∀ i, g i = c)
      → (List.range n).map g = List.replicate n c := by
  induction n with
  | zero => intro g c _; rfl
  | succ m ih =>
    intro g c h
    rw [List.range_succ_eq_map, List.map_cons, List.map_map, h 0,
      ih (g ∘ Nat.succ) c (fun i => h _)]
    rfl

theorem replicate_tail {α : Type} (n : ℕ) (a : α) :
    (List.replicate n a).tail = List.replicate (n - 1) a := by
  cases n <;> simp [List.replicate_succ]

theorem replicate_dropLast {α : Type} (n : ℕ) (a : α) :
    (List.replicate n a).dropLast = List.replicate (n - 1) a := by
  induction n with
  | zero => rfl
  | succ m ih =>
    cases m with
    | zero => rfl
    | succ k =>
      rw [List.replicate_succ, List.dropLast_cons_of_ne_nil (by simp), ih]
      simp [List.replicate_succ]

theorem zipWith_replicate_same {α β γ : Type} (f : α → β → γ) (n : ℕ)
    (a : α) (b : β) :
    List.zipWith f (List.replicate n a) (List.replicate n b)
      = List.replicate n (f a b) := by
  induction n with
  | zero => rfl
  | succ m ih => simp [List.replicate_succ, ih]

theorem filterMap_id_replicate_none (n : ℕ) :
    (List.replicate n (none : NF)).filterMap id = [] := by
  induction n with
  | zero => rfl
  | succ m ih => simp [List.replicate_succ, List.filterMap_cons, ih]

theorem any_id_replicate_false (n : ℕ) :
    (List.replicate n false).any id = false := by
  induction n with
  | zero => rfl
  | succ m ih => simp [List.replicate_succ, ih]

/-- C9: for every requested magnitude whose event-pair subset is empty,
the spatial plot body raises no exception: pandas' `Series.max` returns
NaN on the empty subset, the NaN propagates through the bin edges, the
analytic curve and the empirical histogram normalisation, numpy's
decreasing-bins check passes on NaN edges, and the routine
deterministically hands two all-NaN series to matplotlib (which omits
NaN points), i.e. an empty/degenerate plot. -/
theorem spatial_empty_subset_no_crash (rows : List PairRow) (moi : ℚ)
    (d gamma rho mc : ℝ) (h : spatial_subset rows moi = []) :
    spatial_run rows moi d gamma rho mc
      = Except.ok (List.replicate 49 (none : NF), List.replicate 49 (none : NF)) := by
  have hmax : spatial_max_dist rows moi = none := by
    unfold spatial_max_dist
    rw [h]
    rfl
  have hbins : spatial_bins rows moi = List.replicate 50 (none : NF) := by
    unfold spatial_bins nlogspace nlinspace
    rw [hmax, List.map_map]
    exact map_range_const 50 _ none (fun i => rfl)
  have hsamples : (spatial_subset rows moi).map
      (fun r => (some ((r.spatial_distance_squared : ℝ)) : NF)) = [] := by
    rw [h]
    rfl
  have hweights : (spatial_weights (spatial_subset rows moi)).map
      (fun q => (some ((q : ℝ)) : NF)) = [] := by
    rw [h]
    rfl
  simp only [spatial_run]
  rw [hbins, hsamples, hweights]
  rfl

/-- Witness for C9 at an empty event-pair table and magnitude 4. -/
theorem spatial_empty_subset_no_crash_witness :
    spatial_run [] 4 1 1 1 1
      = Except.ok (List.replicate 49 (none : NF), List.replicate 49 (none : NF)) :=
  spatial_empty_subset_no_crash [] 4 1 1 1 1 rfl

theorem filterMap_id_map_some (f : PairRow → ℝ) (l : List PairRow) :
    (l.map (fun r => (some (f r) : NF))).filterMap id = l.map f := by
  induction l with
  | nil => rfl
  | cons x xs ih => simp [List.filterMap_cons, ih]

theorem seriesMax_rows (f : PairRow → ℝ) (r0 : PairRow) (rs : List PairRow) :
    seriesMax ((r0 :: rs).map fun r => (some (f r) : NF))
      = some (npmaxR ((r0 :: rs).map f)) := by
  unfold seriesMax
  rw [filterMap_id_map_some, List.map_cons]
  rfl

theorem ndiv_some (a b : ℝ) (hb : b ≠ 0) :
    ndiv (some a) (some b) = some (a / b) := by
  show (if b = 0 then none else some (a / b) : NF) = some (a / b)
  rw [if_neg hb]

theorem nsqrt_some (a : ℝ) (ha : 0 ≤ a) :
    nsqrt (some a) = some (Real.sqrt a) := by
  show (if a < 0 then none else some (Real.sqrt a) : NF) = some (Real.sqrt a)
  rw [if_neg (not_lt.2 ha)]

theorem nlog_some (a : ℝ) (ha : 0 < a) :
    nlog (some a) = some (Real.log a) := by
  show (if a ≤ 0 then none else some (Real.log a) : NF) = some (Real.log a)
  rw [if_neg (not_le.2 ha)]

theorem spatial_max_dist_of_pos (rows : List PairRow) (moi : ℚ)
    (h : spatial_subset rows moi ≠ [])
    (hpos : 0 < spatial_max_sq rows moi) :
    spatial_max_dist rows moi = some (Real.sqrt (spatial_max_sq rows moi)) := by
  obtain ⟨r0, rs, hcons⟩ : ∃ a l, spatial_subset rows moi = a :: l := by
    cases hc : spatial_subset rows moi with
    | nil => exact absurd hc h
    | cons a l => exact ⟨a, l, rfl⟩
  have hM : spatial_max_sq rows moi
      = npmaxR ((r0 :: rs).map fun r => ((r.spatial_distance_squared : ℝ))) := by
    unfold spatial_max_sq
    rw [hcons]
  unfold spatial_max_dist
  rw [hcons, seriesMax_rows, ← hM]
  exact nsqrt_some _ hpos.le

/-- C8 (amended): for each requested magnitude with a nonempty matching
subset of positive maximum squared distance, the distance bin edges are
the 50 values `10 ^ linspace(-1, ln(max_dist), 50)` — logarithmically
spaced in base 10 over exponents running to the natural logarithm of the
maximum observed distance — so they run from `0.1` up to
`10 ^ ln(max_dist)`, which differs from `max_dist` itself except when
`max_dist = 1`. -/
theorem spatial_bins_shape (rows : List PairRow) (moi : ℚ)
    (h : spatial_subset rows moi ≠ [])
    (hpos : 0 < spatial_max_sq rows moi) :
    spatial_bins rows moi
      = (List.range 50).map (fun i : ℕ =>
          some ((10 : ℝ) ^ ((i : ℝ)
            * ((Real.log (Real.sqrt (spatial_max_sq rows moi)) - (-1))
              / (((50 : ℕ) : ℝ) - 1)) + (-1))))
    ∧ (spatial_bins rows moi).length = 50
    ∧ (spatial_bins rows moi).head? = some (some ((10 : ℝ) ^ (-1 : ℝ)))
    ∧ (spatial_bins rows moi).getLast?
        = some (some ((10 : ℝ)
            ^ Real.log (Real.sqrt (spatial_max_sq rows moi)))) := by
  have hlogv : nlog (spatial_max_dist rows moi)
      = some (Real.log (Real.sqrt (spatial_max_sq rows moi))) := by
    rw [spatial_max_dist_of_pos rows moi h hpos]
    exact nlog_some _ (Real.sqrt_pos.2 hpos)
  have hne : (((50 : ℕ) : ℝ) - 1) ≠ 0 := by norm_num
  have hbins : spatial_bins rows moi
      = (List.range 50).map (fun i : ℕ =>
          some ((10 : ℝ) ^ ((i : ℝ)
            * ((Real.log (Real.sqrt (spatial_max_sq rows moi)) - (-1))
              / (((50 : ℕ) : ℝ) - 1)) + (-1)))) := by
    unfold spatial_bins nlogspace nlinspace
    rw [hlogv, List.map_map]
    congr 1
    funext i
    show npow10 (nadd (nmul (some (i : ℝ))
        (ndiv (nsub (some (Real.log (Real.sqrt (spatial_max_sq rows moi))))
          (some (-1))) (some (((50 : ℕ) : ℝ) - 1)))) (some (-1))) = _
    rw [show nsub (some (Real.log (Real.sqrt (spatial_max_sq rows moi))))
        (some (-1))
      = some (Real.log (Real.sqrt (spatial_max_sq rows moi)) - (-1)) from rfl]
    rw [ndiv_some _ _ hne]
    rfl
  have hlen : (spatial_bins rows moi).length = 50 := by
    rw [hbins, List.length_map, List.length_range]
  have hhead : (spatial_bins rows moi).head?
      = some (some ((10 : ℝ) ^ (-1 : ℝ))) := by
    have h0 : (spatial_bins rows moi).head?
        = some (some ((10 : ℝ) ^ (((0 : ℕ) : ℝ)
            * ((Real.log (Real.sqrt (spatial_max_sq rows moi)) - (-1))
              / (((50 : ℕ) : ℝ) - 1)) + (-1)))) := by
      rw [hbins]
      rfl
    rw [h0]
    norm_num
  have hlast : (spatial_bins rows moi).getLast?
      = some (some ((10 : ℝ)
          ^ Real.log (Real.sqrt (spatial_max_sq rows moi)))) := by
    have h49 : (spatial_bins rows moi).getLast?
        = some (some ((10 : ℝ) ^ (((49 : ℕ) : ℝ)
            * ((Real.log (Real.sqrt (spatial_max_sq rows moi)) - (-1))
              / (((50 : ℕ) : ℝ) - 1)) + (-1)))) := by
      rw [hbins]
      exact getLast?_map_range _ 49
    rw [h49]
    have hexp : ((49 : ℕ) : ℝ)
        * ((Real.log (Real.sqrt (spatial_max_sq rows moi)) - (-1))
          / (((50 : ℕ) : ℝ) - 1)) + (-1)
        = Real.log (Real.sqrt (spatial_max_sq rows moi)) := by
      push_cast
      field_simp
      ring
    rw [hexp]
  exact ⟨hbins, hlen, hhead, hlast⟩

/-- Witness for the amended C8 at a one-row table with squared distance
10000 and magnitude 3. -/
theorem spatial_bins_shape_witness :
    spatial_bins [⟨0, 10000, 3, 1, 1⟩] 3
      = (List.range 50).map (fun i : ℕ =>
          some ((10 : ℝ) ^ ((i : ℝ)
            * ((Real.log (Real.sqrt (spatial_max_sq [⟨0, 10000, 3, 1, 1⟩] 3)) - (-1))
              / (((50 : ℕ) : ℝ) - 1)) + (-1))))
    ∧ (spatial_bins [⟨0, 10000, 3, 1, 1⟩] 3).length = 50
    ∧ (spatial_bins [⟨0, 10000, 3, 1, 1⟩] 3).head?
        = some (some ((10 : ℝ) ^ (-1 : ℝ)))
    ∧ (spatial_bins [⟨0, 10000, 3, 1, 1⟩] 3).getLast?
        = some (some ((10 : ℝ)
            ^ Real.log (Real.sqrt (spatial_max_sq [⟨0, 10000, 3, 1, 1⟩] 3)))) :=
  spatial_bins_shape [⟨0, 10000, 3, 1, 1⟩] 3
    (by
      have hsub : spatial_subset [⟨0, 10000, 3, 1, 1⟩] 3
          = [⟨0, 10000, 3, 1, 1⟩] := by
        simp [spatial_subset]
      rw [hsub]
      simp)
    (by
      have hsub : spatial_subset [⟨0, 10000, 3, 1, 1⟩] 3
          = [⟨0, 10000, 3, 1, 1⟩] := by
        simp [spatial_subset]
      have hms : spatial_max_sq [⟨0, 10000, 3, 1, 1⟩] 3 = ((10000 : ℚ) : ℝ) := by
        unfold spatial_max_sq
        rw [hsub]
        rfl
      rw [hms]
      norm_num)

/-- C8 counterexample: at the one-row table with squared spatial distance
10000 (max observed distance 100) and magnitude 3, the top bin edge is
`10 ^ ln(100) > 100`, not the maximum observed spatial distance 100. -/
theorem spatial_bins_top_edge_not_max_dist :
    (spatial_bins [⟨0, 10000, 3, 1, 1⟩] 3).getLast? ≠ some (some (100 : ℝ)) := by
  have hsub : spatial_subset [⟨0, 10000, 3, 1, 1⟩] 3 = [⟨0, 10000, 3, 1, 1⟩] := by
    simp [spatial_subset]
  have hsqrt : Real.sqrt ((10000 : ℚ) : ℝ) = 100 := by
    rw [show ((10000 : ℚ) : ℝ) = (100 : ℝ) ^ 2 by norm_num]
    exact Real.sqrt_sq (by norm_num)
  have hmax : spatial_max_dist [⟨0, 10000, 3, 1, 1⟩] 3 = some (100 : ℝ) := by
    unfold spatial_max_dist
    rw [hsub, seriesMax_rows]
    rw [show npmaxR (([⟨0, 10000, 3, 1, 1⟩] : List PairRow).map
          fun r => ((r.spatial_distance_squared : ℝ))) = ((10000 : ℚ) : ℝ) from rfl]
    rw [nsqrt_some _ (by norm_num), hsqrt]
  have hlogv : nlog (spatial_max_dist [⟨0, 10000, 3, 1, 1⟩] 3)
      = some (Real.log 100) := by
    rw [hmax]
    exact nlog_some _ (by norm_num)
  have hlast : (spatial_bins [⟨0, 10000, 3, 1, 1⟩] 3).getLast?
      = some (npow10 (nadd (nmul (some ((49 : ℕ) : ℝ))
          (ndiv (nsub (nlog (spatial_max_dist [⟨0, 10000, 3, 1, 1⟩] 3))
            (some (-1))) (some (((50 : ℕ) : ℝ) - 1)))) (some (-1)))) := by
    unfold spatial_bins nlogspace nlinspace
    rw [List.map_map]
    exact getLast?_map_range _ 49
  rw [hlast, hlogv]
  rw [show nsub (some (Real.log 100)) (some (-1))
      = some (Real.log 100 - (-1)) from rfl]
  rw [ndiv_some _ _ (by norm_num : (((50 : ℕ) : ℝ) - 1) ≠ 0)]
  rw [show nadd (nmul (some ((49 : ℕ) : ℝ))
      (some ((Real.log 100 - (-1)) / (((50 : ℕ) : ℝ) - 1)))) (some (-1))
    = some (((49 : ℕ) : ℝ) * ((Real.log 100 - (-1)) / (((50 : ℕ) : ℝ) - 1))
        + (-1)) from rfl]
  have hexp : ((49 : ℕ) : ℝ) * ((Real.log 100 - (-1)) / (((50 : ℕ) : ℝ) - 1))
      + (-1) = Real.log 100 := by
    push_cast
    field_simp
    ring
  rw [show npow10 (some (((49 : ℕ) : ℝ)
      * ((Real.log 100 - (-1)) / (((50 : ℕ) : ℝ) - 1)) + (-1)))
    = some ((10 : ℝ) ^ (((49 : ℕ) : ℝ)
      * ((Real.log 100 - (-1)) / (((50 : ℕ) : ℝ) - 1)) + (-1))) from rfl]
  rw [hexp]
  have hexp2 : Real.exp 2 < 100 := by
    have h1 : Real.exp 2 = Real.exp 1 * Real.exp 1 := by
      rw [← Real.exp_add]
      norm_num
    have h2 : Real.exp 1 * Real.exp 1 < 2.7182818286 * 2.7182818286 :=
      mul_lt_mul'' Real.exp_one_lt_d9 Real.exp_one_lt_d9
        (Real.exp_pos 1).le (Real.exp_pos 1).le
    rw [h1]
    calc Real.exp 1 * Real.exp 1 < 2.7182818286 * 2.7182818286 := h2
    _ < 100 := by norm_num
  have hlog2 : (2 : ℝ) < Real.log 100 :=
    (Real.lt_log_iff_exp_lt (by norm_num)).2 hexp2
  have hgt : (100 : ℝ) < (10 : ℝ) ^ Real.log 100 := by
    have hpow : (10 : ℝ) ^ (2 : ℝ) < (10 : ℝ) ^ Real.log 100 :=
      (Real.rpow_lt_rpow_left_iff (by norm_num)).2 hlog2
    have h100 : (10 : ℝ) ^ (2 : ℝ) = 100 := by
      rw [show (2 : ℝ) = ((2 : ℕ) : ℝ) by norm_num, Real.rpow_natCast]
      norm_num
    rw [h100] at hpow
    exact hpow
  intro hEq
  have hv : (10 : ℝ) ^ Real.log 100 = 100 := by
    have h1 := Option.some.inj hEq
    exact Option.some.inj h1
  exact absurd hv (ne_of_gt hgt)

end EtasPlots
